import Mathlib

/-!
Verification of the jira-agent repository core: the PR lifecycle store
(`src/jirade/pr_tracker.py`), the free-text ticket-key correlator and the
watch orchestrator loop (`src/jira_agent/main.py`, `handle_watch`).

Python `dict[str, TrackedPR]` is modelled as an association list with
dict semantics (lookup finds the unique binding; insert replaces in place
or appends).  Python `set` is modelled as `Finset`.  Wall-clock timestamps
(`datetime.now(timezone.utc).isoformat()`) are passed in as an opaque
`now : String` argument at each call that reads the clock.
-/

/-- `TrackedPR` dataclass from `src/jirade/pr_tracker.py`.  Field names and
defaults follow the source: `last_checked: str | None = None`,
`status: str = "open"`, `ci_status: str = "pending"`,
`has_feedback: bool = False`, `feedback_addressed: bool = False`. -/
structure TrackedPR where
  pr_number : Int
  pr_url : String
  repo : String
  ticket_key : String
  branch : String
  created_at : String
  last_checked : Option String := none
  status : String := "open"
  ci_status : String := "pending"
  has_feedback : Bool := false
  feedback_addressed : Bool := false
deriving Repr, DecidableEq

/-- Association-list lookup with Python-dict semantics (`self.prs.get(key)`). -/
def dictGet (k : String) : List (String × TrackedPR) → Option TrackedPR
  | [] => none
  | (k', v) :: rest => if k' = k then some v else dictGet k rest

/-- Association-list insert with Python-dict semantics
(`self.prs[key] = pr`): replace the existing binding in place, else append. -/
def dictInsert (k : String) (v : TrackedPR) :
    List (String × TrackedPR) → List (String × TrackedPR)
  | [] => [(k, v)]
  | (k', v') :: rest =>
      if k' = k then (k, v) :: rest else (k', v') :: dictInsert k v rest

/-- `PRTracker` state: `prs` is the in-memory dict, `disk` is the record set
last written by `_save` (the whole-document rewrite of the backing file;
the `updated_at` stamp written alongside it is not modelled). -/
structure PRTracker where
  prs : List (String × TrackedPR)
  disk : List (String × TrackedPR)
deriving Repr, DecidableEq

/-- `PRTracker._key`: `f"{repo}#{pr_number}"`. -/
def prKey (repo : String) (pr_number : Int) : String :=
  repo ++ "#" ++ toString pr_number

/-- What `_load` (called from `__post_init__`) can see on disk: the file is
absent, the file is readable and parses into `entries`, or reading, JSON
parsing, or one of the `TrackedPR(**pr_data)` constructions raises, in which
case `loadedBefore` is the prefix of entries stored into `self.prs` before
the exception. -/
inductive LoadInput where
  | missing
  | ok (entries : List (String × TrackedPR))
  | corrupt (loadedBefore : List (String × TrackedPR))
deriving Repr, DecidableEq

/-- `PRTracker._load`, as the source has it: the whole body is wrapped in
`try/except Exception`, which logs `logger.warning(f"Failed to load PR
tracker: ...")` and returns normally — so construction yields `Except.ok`
on every input, keeping whatever entries were stored before any exception
(the empty set when the file was missing or parsing failed outright). -/
def pRTracker_load : LoadInput → Except String (List (String × TrackedPR))
  | .missing => .ok []
  | .ok entries => .ok entries
  | .corrupt loadedBefore => .ok loadedBefore

/-- `PRTracker.add_pr`: builds a fresh `TrackedPR` with `created_at` set to
the current time and the dataclass defaults (`status="open"`,
`ci_status="pending"`, `last_checked=None`, feedback flags false), stores it
under `repo#number` — overwriting any existing binding, there is no
existence check — and calls `_save`.  Returns the tracked PR. -/
def add_pr (t : PRTracker) (now : String) (pr_number : Int)
    (pr_url repo ticket_key branch : String) : PRTracker × TrackedPR :=
  let key := prKey repo pr_number
  let pr : TrackedPR :=
    { pr_number := pr_number, pr_url := pr_url, repo := repo,
      ticket_key := ticket_key, branch := branch, created_at := now }
  let prs' := dictInsert key pr t.prs
  ({ prs := prs', disk := prs' }, pr)

/-- One keyword argument to `update_pr`.  The eleven named constructors are
exactly the attributes of `TrackedPR`; `unknown name` stands for any keyword
whose name is not an attribute (so `hasattr(pr, field_name)` is false). -/
inductive PRField where
  | pr_number (v : Int)
  | pr_url (v : String)
  | repo (v : String)
  | ticket_key (v : String)
  | branch (v : String)
  | created_at (v : String)
  | last_checked (v : Option String)
  | status (v : String)
  | ci_status (v : String)
  | has_feedback (v : Bool)
  | feedback_addressed (v : Bool)
  | unknown (name : String)
deriving Repr, DecidableEq

/-- The loop body of `update_pr`:
`if hasattr(pr, field_name): setattr(pr, field_name, value)` — a recognized
attribute is assigned, an unrecognized keyword is silently skipped. -/
def setField (pr : TrackedPR) : PRField → TrackedPR
  | .pr_number v => { pr with pr_number := v }
  | .pr_url v => { pr with pr_url := v }
  | .repo v => { pr with repo := v }
  | .ticket_key v => { pr with ticket_key := v }
  | .branch v => { pr with branch := v }
  | .created_at v => { pr with created_at := v }
  | .last_checked v => { pr with last_checked := v }
  | .status v => { pr with status := v }
  | .ci_status v => { pr with ci_status := v }
  | .has_feedback v => { pr with has_feedback := v }
  | .feedback_addressed v => { pr with feedback_addressed := v }
  | .unknown _ => pr

/-- Whether a keyword names an actual `TrackedPR` attribute
(`hasattr(pr, field_name)`). -/
def PRField.isKnown : PRField → Bool
  | .unknown _ => false
  | _ => true

/-- `PRTracker.update_pr`: looks up `repo#number`; if absent returns `None`
with the store untouched (no `_save`).  Otherwise applies each supplied
keyword in order via `setField`, stamps `last_checked` with the current
time, calls `_save`, and returns the updated record. -/
def update_pr (t : PRTracker) (now : String) (repo : String) (pr_number : Int)
    (updates : List PRField) : PRTracker × Option TrackedPR :=
  let key := prKey repo pr_number
  match dictGet key t.prs with
  | none => (t, none)
  | some pr =>
      let pr' := { updates.foldl setField pr with last_checked := some now }
      let prs' := dictInsert key pr' t.prs
      ({ prs := prs', disk := prs' }, some pr')

/-- `PRTracker.get_pr`: `self.prs.get(self._key(repo, pr_number))`. -/
def get_pr (t : PRTracker) (repo : String) (pr_number : Int) :
    Option TrackedPR :=
  dictGet (prKey repo pr_number) t.prs

/-- The repo filter of `get_prs_needing_attention`:
`if repo and pr.repo != repo: continue` — a record is kept when the filter
argument is `None` or the empty string (both falsy), or equals `pr.repo`. -/
def repoKeeps (repo : Option String) (pr : TrackedPR) : Bool :=
  match repo with
  | none => true
  | some r => r == "" || pr.repo == r

/-- `PRTracker.get_prs_needing_attention`: iterates `self.prs.values()`,
skips records whose `status` is not `"open"`, skips records rejected by the
repo filter, and keeps those with `ci_status == "failure"` or
(`has_feedback and not feedback_addressed`). -/
def get_prs_needing_attention (t : PRTracker) (repo : Option String) :
    List TrackedPR :=
  (t.prs.map Prod.snd).filter fun pr =>
    pr.status == "open" && repoKeeps repo pr &&
      (pr.ci_status == "failure" || (pr.has_feedback && !pr.feedback_addressed))

/-! ## Correlator

`handle_watch` builds `ticket_pattern = rf"\b({re.escape(project_key)}-\d+)\b"`
and runs `re.search(ticket_pattern, f"{title} {branch}", re.IGNORECASE)`; on a
match it takes `match.group(1).upper()`.  The regex is modelled over the ASCII
range: a word character (`\w`) is a letter, digit or underscore;
case-insensitivity folds with `Char.toLower`; `.upper()` maps `Char.toUpper`.
At a given start position `\d+` must run to the maximal digit block: a shorter
(backtracked) digit run is followed by a digit, which is a word character, so
the trailing `\b` can never be satisfied by backtracking. -/

/-- ASCII word character, as in the regex class `\w`. -/
def isWordChar (c : Char) : Bool := c.isAlphanum || c == '_'

/-- Whether the (optional) character left of the current position is a word
character; the position before the start of the text counts as non-word. -/
def wordOpt : Option Char → Bool
  | none => false
  | some c => isWordChar c

/-- Case-insensitive literal match of `pat` as a prefix of the text; returns
the remaining text on success. -/
def ciMatch : List Char → List Char → Option (List Char)
  | [], t => some t
  | _ :: _, [] => none
  | p :: ps, c :: cs => if p.toLower = c.toLower then ciMatch ps cs else none

/-- Attempt to match `\b(PROJECT-\d+)\b` anchored at the current position.
`pat` is `PROJECT-` as a character list, `prev` the character immediately
before the position.  On success returns the matched substring (as it appears
in the text, before canonicalization). -/
def matchAt (pat : List Char) (prev : Option Char) : List Char → Option (List Char)
  | [] => none
  | c :: cs =>
      if wordOpt prev = isWordChar c then none
      else
        match ciMatch pat (c :: cs) with
        | none => none
        | some rest =>
            let ds := rest.takeWhile Char.isDigit
            if ds = [] then none
            else
              match rest.dropWhile Char.isDigit with
              | [] => some ((c :: cs).take pat.length ++ ds)
              | c' :: _ =>
                  if isWordChar c' then none
                  else some ((c :: cs).take pat.length ++ ds)

/-- Left-to-right scan of `re.search`: try each start position in order and
return the first successful `matchAt`. -/
def findFrom (pat : List Char) (prev : Option Char) : List Char → Option (List Char)
  | [] => none
  | c :: cs =>
      match matchAt pat prev (c :: cs) with
      | some m => some m
      | none => findFrom pat (some c) cs

/-- The correlator: `re.search(rf"\b({project}-\d+)\b", text, re.IGNORECASE)`
followed by `.group(1).upper()` on success. -/
def findTicketKey (project : String) (text : String) : Option String :=
  (findFrom (project.toList ++ ['-']) none text.toList).map
    fun m => String.mk (m.map Char.toUpper)

/-- The character before position `i` of `t`, where `prev` is the character
before position `0` (the scan of `findFrom` carries it along). -/
def prevAux (prev : Option Char) (t : List Char) : Nat → Option Char
  | 0 => prev
  | j + 1 => t.get? j

/-- The character before position `i` of the full text (`none` at the start). -/
def prevAt (t : List Char) (i : Nat) : Option Char :=
  prevAux none t i

/-- `\b(PROJECT-\d+)\b` matched at start position `i` of the full text. -/
def matchAtIdx (pat t : List Char) (i : Nat) : Option (List Char) :=
  matchAt pat (prevAt t i) (t.drop i)

/-! ## Watch orchestrator (`handle_watch` in `src/jira_agent/main.py`)

The poll loop holds two run-scoped dedup sets,
`processed_prs: set[int]` and `processing_tickets: set[str]`, modelled as
`Finset`.  The external collaborators are parameters:
`proc` is `agent.process_single_ticket` (branching on `result.get("status")`:
`"completed"`, `"skipped"`, anything else is a failure result; the call can
also raise), and `trans` is `agent.transition_ticket_to_done` (branching on
`result.get("success")`; the call can also raise).  A raised exception
propagates to the per-tick `except Exception` handler, which prints
`Error during poll` and falls through to the sleep, so the loop itself
continues.  Each step also emits a trace of collaborator invocations so that
at-most-once properties can be stated by counting. -/

/-- Outcome of `agent.process_single_ticket`: the `status` field of the
result dict (`completed`, `skipped`, anything else = failure), or a raised
exception. -/
inductive ProcResult where
  | completed
  | skipped
  | failed
  | raised
deriving Repr, DecidableEq

/-- Outcome of `agent.transition_ticket_to_done`: truthiness of the
`success` field, or a raised exception. -/
inductive TransResult where
  | success
  | failure
  | raised
deriving Repr, DecidableEq

/-- The run-scoped dedup state of `handle_watch`. -/
structure WatchState where
  processing_tickets : Finset String
  processed_prs : Finset Int
deriving DecidableEq

/-- One collaborator invocation, recorded in the trace. -/
inductive WatchEvent where
  | procInvoked (ticket : String)
  | transInvoked (ticket : String) (pr_number : Int)
deriving Repr, DecidableEq

/-- A closed PR as returned by `github.list_pull_requests(state="closed")`:
`number`, `merged_at` (absent for closed-without-merge), `title` and
`head.ref`. -/
structure PRInfo where
  number : Int
  merged_at : Option String
  title : String
  branch : String
deriving Repr, DecidableEq

/-- Body of the ticket loop for one ticket key: skip if already in
`processing_tickets`; otherwise add the key, invoke the processing
capability and branch on the result — `completed` leaves the key in the
set, `skipped` and failure results discard it, a raised exception leaves it
in the set and aborts the tick (third component `true`). -/
def ticketStep (proc : String → ProcResult) (st : WatchState) (key : String) :
    WatchState × List WatchEvent × Bool :=
  if key ∈ st.processing_tickets then (st, [], false)
  else
    let st1 : WatchState :=
      { st with processing_tickets := insert key st.processing_tickets }
    match proc key with
    | .completed => (st1, [.procInvoked key], false)
    | .skipped =>
        ({ st1 with processing_tickets := st1.processing_tickets.erase key },
         [.procInvoked key], false)
    | .failed =>
        ({ st1 with processing_tickets := st1.processing_tickets.erase key },
         [.procInvoked key], false)
    | .raised => (st1, [.procInvoked key], true)

/-- The ticket loop: run `ticketStep` over the polled tickets in order; a
raised exception aborts the remaining iterations. -/
def runTickets (proc : String → ProcResult) (st : WatchState) :
    List String → WatchState × List WatchEvent × Bool
  | [] => (st, [], false)
  | key :: rest =>
      let r := ticketStep proc st key
      if r.2.2 then r
      else
        let r2 := runTickets proc r.1 rest
        (r2.1, r.2.1 ++ r2.2.1, r2.2.2)

/-- Body of the PR loop for one closed PR: skip (without caching) if there
is no merge timestamp or the number is already in `processed_prs`; run the
correlator on `f"{title} {branch}"`; with no match cache the number; with a
match invoke the transition capability — on success discard the ticket key
from `processing_tickets` and cache the number, on failure only cache the
number, on a raised exception abort the tick before the number is cached. -/
def prStep (trans : String → TransResult) (project : String) (st : WatchState)
    (pr : PRInfo) : WatchState × List WatchEvent × Bool :=
  if pr.merged_at = none ∨ pr.number ∈ st.processed_prs then (st, [], false)
  else
    match findTicketKey project (pr.title ++ " " ++ pr.branch) with
    | none =>
        ({ st with processed_prs := insert pr.number st.processed_prs },
         [], false)
    | some key =>
        match trans key with
        | .success =>
            ({ processing_tickets := st.processing_tickets.erase key,
               processed_prs := insert pr.number st.processed_prs },
             [.transInvoked key pr.number], false)
        | .failure =>
            ({ st with processed_prs := insert pr.number st.processed_prs },
             [.transInvoked key pr.number], false)
        | .raised => (st, [.transInvoked key pr.number], true)

/-- The PR loop: run `prStep` over the polled closed PRs in order; a raised
exception aborts the remaining iterations. -/
def runPRs (trans : String → TransResult) (project : String) (st : WatchState) :
    List PRInfo → WatchState × List WatchEvent × Bool
  | [] => (st, [], false)
  | pr :: rest =>
      let r := prStep trans project st pr
      if r.2.2 then r
      else
        let r2 := runPRs trans project r.1 rest
        (r2.1, r.2.1 ++ r2.2.1, r2.2.2)

/-- One poll tick: the Jira stage (ticket loop) followed by the GitHub stage
(PR loop).  An exception raised in the ticket loop propagates to the tick
boundary, so the PR loop of that tick never runs. -/
def watchTick (proc : String → ProcResult) (trans : String → TransResult)
    (project : String) (st : WatchState) (tickets : List String)
    (prs : List PRInfo) : WatchState × List WatchEvent × Bool :=
  let r := runTickets proc st tickets
  if r.2.2 then r
  else
    let r2 := runPRs trans project r.1 prs
    (r2.1, r.2.1 ++ r2.2.1, r2.2.2)

/-- The `while True` loop: each element of `polls` is what the two polls of
one tick returned.  The per-tick `except Exception` handler means every tick
runs regardless of whether earlier ticks aborted; the dedup state flows from
tick to tick.  Returns the final state and each tick's trace with its
aborted flag. -/
def runWatch (proc : String → ProcResult) (trans : String → TransResult)
    (project : String) (st : WatchState) :
    List (List String × List PRInfo) → WatchState × List (List WatchEvent × Bool)
  | [] => (st, [])
  | poll :: rest =>
      let r := watchTick proc trans project st poll.1 poll.2
      let r2 := runWatch proc trans project r.1 rest
      (r2.1, r.2 :: r2.2)

/-- Number of invocations of the transition capability for PR number `n`
in a trace. -/
def countTrans (n : Int) (evs : List WatchEvent) : Nat :=
  (evs.filter fun e =>
    match e with
    | .transInvoked _ m => m == n
    | _ => false).length

/-- Number of invocations of the processing capability for ticket `k`
in a trace. -/
def countProc (k : String) (evs : List WatchEvent) : Nat :=
  (evs.filter fun e =>
    match e with
    | .procInvoked k' => k' == k
    | _ => false).length

/-- The full invocation trace of a run: every tick's events, in order. -/
def watchTrace (proc : String → ProcResult) (trans : String → TransResult)
    (project : String) (st : WatchState)
    (polls : List (List String × List PRInfo)) : List WatchEvent :=
  (((runWatch proc trans project st polls).2).map Prod.fst).flatten

/-! ## Spec-side models used for refinement comparisons -/

/-- The Lifecycle Store `add` operation as claim C1 words it: the call
*fails* (returns `none`) when a record for `(repo, number)` already exists;
otherwise it creates the record with status `open`, CI status `pending` and
`created_at` set to the current time. -/
def add_pr_specModel (t : PRTracker) (now : String) (pr_number : Int)
    (pr_url repo ticket_key branch : String) : Option (PRTracker × TrackedPR) :=
  let key := prKey repo pr_number
  match dictGet key t.prs with
  | some _ => none
  | none =>
      let pr : TrackedPR :=
        { pr_number := pr_number, pr_url := pr_url, repo := repo,
          ticket_key := ticket_key, branch := branch, created_at := now }
      let prs' := dictInsert key pr t.prs
      some ({ prs := prs', disk := prs' }, pr)

/-- The store constructor's load step as claim C2 words it: corrupt or
unreadable persisted state is fatal at startup (an `Except.error`); a
missing file starts empty and a readable file loads its entries. -/
def load_specModel : LoadInput → Except String (List (String × TrackedPR))
  | .missing => .ok []
  | .ok entries => .ok entries
  | .corrupt _ => .error "corrupt persisted state"

/-- Lookup after in-place insert at the same key. -/
theorem dictGet_dictInsert_self (k : String) (v : TrackedPR)
    (l : List (String × TrackedPR)) : dictGet k (dictInsert k v l) = some v := by
  induction l with
  | nil => simp [dictInsert, dictGet]
  | cons hd tl ih =>
      by_cases h : hd.1 = k
      · simp [dictInsert, dictGet, h]
      · simp [dictInsert, dictGet, h, ih]

/-- Lookup after in-place insert at a different key. -/
theorem dictGet_dictInsert_ne (k k' : String) (v : TrackedPR)
    (l : List (String × TrackedPR)) (h : k' ≠ k) :
    dictGet k' (dictInsert k v l) = dictGet k' l := by
  induction l with
  | nil => simp [dictInsert, dictGet, Ne.symm h]
  | cons hd tl ih =>
      by_cases hh : hd.1 = k
      · subst hh
        simp [dictInsert, dictGet, h, Ne.symm h]
      · simp [dictInsert, dictGet, hh, ih]

/-- Applying the update loop ignores keywords that are not attributes:
folding over the full keyword list equals folding over the recognized ones. -/
theorem foldl_setField_filter (updates : List PRField) (pr : TrackedPR) :
    updates.foldl setField pr = (updates.filter PRField.isKnown).foldl setField pr := by
  induction updates generalizing pr with
  | nil => rfl
  | cons u rest ih => cases u <;> simp [PRField.isKnown, setField, ih]

/-- C7: `get_prs_needing_attention` returns exactly the records of the store
with status `open` that pass the repo filter and have `ci_status = "failure"`
or unaddressed feedback (`has_feedback` and not `feedback_addressed`) — for
every store contents, every filter argument and every combination of the two
feedback booleans and three CI states, and no other record. -/
theorem get_prs_needing_attention_iff (t : PRTracker) (repo : Option String)
    (pr : TrackedPR) :
    pr ∈ get_prs_needing_attention t repo ↔
      pr ∈ t.prs.map Prod.snd ∧ pr.status = "open" ∧
      (match repo with
       | none => True
       | some r => r = "" ∨ pr.repo = r) ∧
      (pr.ci_status = "failure" ∨
        (pr.has_feedback = true ∧ pr.feedback_addressed = false)) := by
  cases repo with
  | none =>
      simp [get_prs_needing_attention, List.mem_filter, repoKeeps,
        Bool.and_eq_true, Bool.or_eq_true, beq_iff_eq, Bool.not_eq_true',
        and_assoc]
  | some r =>
      simp [get_prs_needing_attention, List.mem_filter, repoKeeps,
        Bool.and_eq_true, Bool.or_eq_true, beq_iff_eq, Bool.not_eq_true',
        and_assoc]

/-- C8: round-trip of the Lifecycle Store.  `add` then `get` for the same
(repo, number) yields a record equal to the input on every supplied field,
with the documented initial values (`status = "open"`,
`ci_status = "pending"`, `last_checked = none`).  `update` supplying only
`ci_status` then `get` shows exactly `ci_status` and `last_checked` changed
and every other field unchanged (the store is persisted).  `update` on an
absent record returns `none` and leaves the store untouched. -/
theorem store_roundtrip (t : PRTracker) (now now2 v : String) (n : Int)
    (url repo tk br : String) :
    (get_pr (add_pr t now n url repo tk br).1 repo n =
       some { pr_number := n, pr_url := url, repo := repo, ticket_key := tk,
              branch := br, created_at := now, last_checked := none,
              status := "open", ci_status := "pending", has_feedback := false,
              feedback_addressed := false }) ∧
    (∀ pr, get_pr t repo n = some pr →
       update_pr t now2 repo n [.ci_status v] =
         ({ prs := dictInsert (prKey repo n)
              { pr with ci_status := v, last_checked := some now2 } t.prs,
            disk := dictInsert (prKey repo n)
              { pr with ci_status := v, last_checked := some now2 } t.prs },
          some { pr with ci_status := v, last_checked := some now2 }) ∧
       get_pr (update_pr t now2 repo n [.ci_status v]).1 repo n =
         some { pr with ci_status := v, last_checked := some now2 }) ∧
    (get_pr t repo n = none → update_pr t now2 repo n [.ci_status v] = (t, none))
    := by
  refine ⟨?_, ?_, ?_⟩
  · simp [get_pr, add_pr, dictGet_dictInsert_self]
  · intro pr h
    simp only [get_pr] at h
    simp [update_pr, h, setField, get_pr, dictGet_dictInsert_self]
  · intro h
    simp only [get_pr] at h
    simp [update_pr, h]

/-- C8 witness: the round-trip theorem applied to a concrete store built by
`add` on the empty store, with each hypothesis discharged by evaluation. -/
theorem store_roundtrip_witness :
    (update_pr (add_pr ⟨[], []⟩ "T0" 5 "u" "o/r" "PROJ-1" "b").1 "T1" "o/r" 5
        [.ci_status "failure"]).2 =
      some { pr_number := 5, pr_url := "u", repo := "o/r",
             ticket_key := "PROJ-1", branch := "b", created_at := "T0",
             last_checked := some "T1", status := "open",
             ci_status := "failure", has_feedback := false,
             feedback_addressed := false } ∧
    get_pr (update_pr (add_pr ⟨[], []⟩ "T0" 5 "u" "o/r" "PROJ-1" "b").1 "T1"
        "o/r" 5 [.ci_status "failure"]).1 "o/r" 5 =
      some { pr_number := 5, pr_url := "u", repo := "o/r",
             ticket_key := "PROJ-1", branch := "b", created_at := "T0",
             last_checked := some "T1", status := "open",
             ci_status := "failure", has_feedback := false,
             feedback_addressed := false } ∧
    update_pr (⟨[], []⟩ : PRTracker) "T2" "x/y" 9 [.ci_status "failure"] =
      (⟨[], []⟩, none) := by
  have h2 := (store_roundtrip (add_pr ⟨[], []⟩ "T0" 5 "u" "o/r" "PROJ-1" "b").1
      "T0" "T1" "failure" 5 "u" "o/r" "PROJ-1" "b").2.1
    { pr_number := 5, pr_url := "u", repo := "o/r", ticket_key := "PROJ-1",
      branch := "b", created_at := "T0" } (by decide)
  refine ⟨?_, h2.2, (store_roundtrip ⟨[], []⟩ "T0" "T2" "failure" 9 "u" "x/y"
    "PROJ-1" "b").2.2 (by decide)⟩
  rw [h2.1]

/-- C10: `update` on an existing record silently ignores supplied keywords
that are not `TrackedPR` attributes.  The call is total (never raises): its
result is exactly the result of applying only the recognized keywords, with
`last_checked` stamped, the record re-stored and the store persisted
(`disk = prs`); in particular an all-unknown update changes nothing but
`last_checked`. -/
theorem update_pr_unknown_ignored (t : PRTracker) (now repo : String) (n : Int)
    (updates : List PRField) (pr : TrackedPR) (h : get_pr t repo n = some pr) :
    (update_pr t now repo n updates =
      ({ prs := dictInsert (prKey repo n)
           { (updates.filter PRField.isKnown).foldl setField pr with
             last_checked := some now } t.prs,
         disk := dictInsert (prKey repo n)
           { (updates.filter PRField.isKnown).foldl setField pr with
             last_checked := some now } t.prs },
       some { (updates.filter PRField.isKnown).foldl setField pr with
              last_checked := some now })) ∧
    (update_pr t now repo n updates).1.disk = (update_pr t now repo n updates).1.prs ∧
    ((∀ u ∈ updates, u.isKnown = false) →
       (update_pr t now repo n updates).2 = some { pr with last_checked := some now }) := by
  simp only [get_pr] at h
  have hfold := foldl_setField_filter updates pr
  refine ⟨?_, ?_, ?_⟩
  · simp [update_pr, h, hfold]
  · simp [update_pr, h]
  · intro hall
    have : updates.filter PRField.isKnown = [] := by
      refine List.filter_eq_nil_iff.mpr ?_
      intro u hu
      simp [hall u hu]
    simp [update_pr, h, hfold, this]

/-- C10 witness: updating a concrete one-record store with two unrecognized
keywords and nothing else leaves every field but `last_checked` unchanged. -/
theorem update_pr_unknown_ignored_witness :
    (update_pr (add_pr ⟨[], []⟩ "T0" 5 "u" "o/r" "PROJ-1" "b").1 "T1" "o/r" 5
        [.unknown "no_such_field", .unknown "also_missing"]).2 =
      some { pr_number := 5, pr_url := "u", repo := "o/r",
             ticket_key := "PROJ-1", branch := "b", created_at := "T0",
             last_checked := some "T1", status := "open",
             ci_status := "pending", has_feedback := false,
             feedback_addressed := false } := by
  have h := (update_pr_unknown_ignored (add_pr ⟨[], []⟩ "T0" 5 "u" "o/r"
      "PROJ-1" "b").1 "T1" "o/r" 5
      [.unknown "no_such_field", .unknown "also_missing"]
      { pr_number := 5, pr_url := "u", repo := "o/r", ticket_key := "PROJ-1",
        branch := "b", created_at := "T0" } (by decide)).2.2 (by decide)
  exact h

/-- C1 counterexample: with a record already stored for `("o/r", 5)`, a
second `add` call for the same pair does not fail — it returns normally and
silently overwrites the stored record (the claim's reading, modelled by
`add_pr_specModel`, would refuse the call). -/
theorem add_pr_counterexample :
    (dictGet (prKey "o/r" 5)
       (add_pr ⟨[], []⟩ "T0" 5 "u0" "o/r" "PROJ-1" "b0").1.prs).isSome = true ∧
    add_pr_specModel (add_pr ⟨[], []⟩ "T0" 5 "u0" "o/r" "PROJ-1" "b0").1
      "T1" 5 "u1" "o/r" "PROJ-2" "b1" = none ∧
    (add_pr (add_pr ⟨[], []⟩ "T0" 5 "u0" "o/r" "PROJ-1" "b0").1
        "T1" 5 "u1" "o/r" "PROJ-2" "b1").2.ticket_key = "PROJ-2" ∧
    get_pr (add_pr (add_pr ⟨[], []⟩ "T0" 5 "u0" "o/r" "PROJ-1" "b0").1
        "T1" 5 "u1" "o/r" "PROJ-2" "b1").1 "o/r" 5 =
      some { pr_number := 5, pr_url := "u1", repo := "o/r",
             ticket_key := "PROJ-2", branch := "b1", created_at := "T1",
             last_checked := none, status := "open", ci_status := "pending",
             has_feedback := false, feedback_addressed := false } := by
  decide

/-- C1 amended: every `add` call creates a record with status `open`, CI
status `pending` and creation timestamp set to the current time, stores it
under the (repo, number) key and persists the store; a record already stored
for that pair is silently overwritten — the call never fails — and every
other key is untouched. -/
theorem add_pr_amended (t : PRTracker) (now : String) (n : Int)
    (url repo tk br : String) :
    (add_pr t now n url repo tk br).2.status = "open" ∧
    (add_pr t now n url repo tk br).2.ci_status = "pending" ∧
    (add_pr t now n url repo tk br).2.created_at = now ∧
    get_pr (add_pr t now n url repo tk br).1 repo n =
      some (add_pr t now n url repo tk br).2 ∧
    (add_pr t now n url repo tk br).1.disk = (add_pr t now n url repo tk br).1.prs ∧
    (∀ k, k ≠ prKey repo n →
      dictGet k (add_pr t now n url repo tk br).1.prs = dictGet k t.prs) := by
  refine ⟨rfl, rfl, rfl, ?_, rfl, ?_⟩
  · simp [get_pr, add_pr, dictGet_dictInsert_self]
  · intro k hk
    simp [add_pr, dictGet_dictInsert_ne _ _ _ _ hk]

/-- C1 amended witness: the amended theorem at a concrete call over a store
that already holds a record for the key, hypothesis discharged at a
concrete distinct key. -/
theorem add_pr_amended_witness :
    (add_pr (add_pr ⟨[], []⟩ "T0" 5 "u0" "o/r" "PROJ-1" "b0").1
        "T1" 5 "u1" "o/r" "PROJ-2" "b1").2.status = "open" ∧
    dictGet "other#1"
      (add_pr (add_pr ⟨[], []⟩ "T0" 5 "u0" "o/r" "PROJ-1" "b0").1
        "T1" 5 "u1" "o/r" "PROJ-2" "b1").1.prs =
      dictGet "other#1" (add_pr ⟨[], []⟩ "T0" 5 "u0" "o/r" "PROJ-1" "b0").1.prs :=
  ⟨(add_pr_amended (add_pr ⟨[], []⟩ "T0" 5 "u0" "o/r" "PROJ-1" "b0").1
      "T1" 5 "u1" "o/r" "PROJ-2" "b1").1,
   (add_pr_amended (add_pr ⟨[], []⟩ "T0" 5 "u0" "o/r" "PROJ-1" "b0").1
      "T1" 5 "u1" "o/r" "PROJ-2" "b1").2.2.2.2.2 "other#1" (by decide)⟩

/-- C2 counterexample: on corrupt persisted state the constructor does not
fail — `_load` catches the exception, logs a warning and the store starts
with an empty record set, where the claim (modelled by `load_specModel`)
demands a startup error. -/
theorem load_counterexample :
    pRTracker_load (.corrupt []) = .ok [] ∧
    load_specModel (.corrupt []) = .error "corrupt persisted state" :=
  ⟨rfl, rfl⟩

/-- C2 amended: store construction never fails.  Corrupt or unreadable
persisted state is caught inside `_load`: a warning is logged and the store
continues with the entries read before the failure (the empty record set
when reading or parsing failed outright); a missing file also starts empty. -/
theorem load_amended (loadedBefore : List (String × TrackedPR)) :
    pRTracker_load (.corrupt loadedBefore) = .ok loadedBefore ∧
    pRTracker_load .missing = .ok [] :=
  ⟨rfl, rfl⟩

/-- Shifting the previous-character tracker one position into the text. -/
theorem prevAux_cons (prev : Option Char) (c : Char) (cs : List Char) (i : Nat) :
    prevAux prev (c :: cs) (i + 1) = prevAux (some c) cs i := by
  cases i with
  | zero => rfl
  | succ j => rfl

/-- A successful scan returns the match at the first position where the
anchored pattern matches: all earlier positions fail. -/
theorem findFrom_some_leftmost (pat : List Char) :
    ∀ (t : List Char) (prev : Option Char) (m : List Char),
      findFrom pat prev t = some m →
      ∃ i, matchAt pat (prevAux prev t i) (t.drop i) = some m ∧
        ∀ j, j < i → matchAt pat (prevAux prev t j) (t.drop j) = none := by
  intro t
  induction t with
  | nil => intro prev m h; simp [findFrom] at h
  | cons c cs ih =>
      intro prev m h
      cases hm : matchAt pat prev (c :: cs) with
      | some m' =>
          simp only [findFrom, hm] at h
          refine ⟨0, ?_, ?_⟩
          · rw [h] at hm; exact hm
          · intro j hj; exact absurd hj (Nat.not_lt_zero j)
      | none =>
          simp only [findFrom, hm] at h
          obtain ⟨i, hi, hlt⟩ := ih (some c) m h
          refine ⟨i + 1, ?_, ?_⟩
          · rw [prevAux_cons]; exact hi
          · intro j hj
            cases j with
            | zero => exact hm
            | succ j' =>
                rw [prevAux_cons]
                exact hlt j' (by omega)

/-- A failed scan means the anchored pattern matches at no position. -/
theorem findFrom_none (pat : List Char) :
    ∀ (t : List Char) (prev : Option Char), findFrom pat prev t = none →
      ∀ i, matchAt pat (prevAux prev t i) (t.drop i) = none := by
  intro t
  induction t with
  | nil =>
      intro prev _ i
      cases i <;> rfl
  | cons c cs ih =>
      intro prev h i
      cases hm : matchAt pat prev (c :: cs) with
      | some m' => simp [findFrom, hm] at h
      | none =>
          simp only [findFrom, hm] at h
          cases i with
          | zero => exact hm
          | succ j =>
              rw [prevAux_cons]
              exact ih (some c) h j

/-- C9: the Correlator is a pure function of the text and the project key
(determinism is intrinsic: it is a Lean function).  When it returns a key,
that key is the uppercase canonicalization of the substring matched at the
first — leftmost — position of the text where `\b(PROJECT-\d+)\b` matches
case-insensitively, and every earlier position fails to match; it returns
`none` exactly when no position of the text matches. -/
theorem correlator_leftmost_upper (project text : String) :
    (∀ k, findTicketKey project text = some k →
       ∃ i m, matchAtIdx (project.toList ++ ['-']) text.toList i = some m ∧
         k = String.mk (m.map Char.toUpper) ∧
         ∀ j, j < i →
           matchAtIdx (project.toList ++ ['-']) text.toList j = none) ∧
    (findTicketKey project text = none ↔
       ∀ i, matchAtIdx (project.toList ++ ['-']) text.toList i = none) := by
  constructor
  · intro k hk
    simp only [findTicketKey, Option.map_eq_some'] at hk
    obtain ⟨m, hm, hk⟩ := hk
    obtain ⟨i, hi, hlt⟩ := findFrom_some_leftmost _ _ _ _ hm
    exact ⟨i, m, hi, hk.symm, hlt⟩
  · constructor
    · intro h i
      simp only [findTicketKey, Option.map_eq_none'] at h
      exact findFrom_none _ _ _ h i
    · intro h
      cases hf : findFrom (project.toList ++ ['-']) none text.toList with
      | none =>
          simp only [findTicketKey, Option.map_eq_none']
          exact hf
      | some m =>
          obtain ⟨i, hi, _⟩ := findFrom_some_leftmost _ _ _ _ hf
          have hn := h i
          simp only [matchAtIdx, prevAt] at hn
          rw [hn] at hi
          cases hi

/-- C9 witness: the theorem applied to the spec's scenario text, hypothesis
discharged by evaluation — the correlator yields `PROJ-100`. -/
theorem correlator_leftmost_upper_witness :
    findTicketKey "PROJ" "feat: add metric (PROJ-100) feature/proj-100-metric"
      = some "PROJ-100" ∧
    (∃ i m, matchAtIdx ("PROJ".toList ++ ['-'])
         "feat: add metric (PROJ-100) feature/proj-100-metric".toList i
         = some m ∧
       "PROJ-100" = String.mk (m.map Char.toUpper) ∧
       ∀ j, j < i → matchAtIdx ("PROJ".toList ++ ['-'])
         "feat: add metric (PROJ-100) feature/proj-100-metric".toList j
         = none) :=
  ⟨by decide,
   (correlator_leftmost_upper "PROJ"
     "feat: add metric (PROJ-100) feature/proj-100-metric").1 "PROJ-100"
     (by decide)⟩

/-- Unfolding `runTickets` on a cons cell. -/
theorem runTickets_cons (proc : String → ProcResult) (st : WatchState)
    (key : String) (rest : List String) :
    runTickets proc st (key :: rest) =
      if (ticketStep proc st key).2.2 then ticketStep proc st key
      else ((runTickets proc (ticketStep proc st key).1 rest).1,
            (ticketStep proc st key).2.1 ++
              (runTickets proc (ticketStep proc st key).1 rest).2.1,
            (runTickets proc (ticketStep proc st key).1 rest).2.2) := rfl

/-- Unfolding `runPRs` on a cons cell. -/
theorem runPRs_cons (trans : String → TransResult) (project : String)
    (st : WatchState) (pr : PRInfo) (rest : List PRInfo) :
    runPRs trans project st (pr :: rest) =
      if (prStep trans project st pr).2.2 then prStep trans project st pr
      else ((runPRs trans project (prStep trans project st pr).1 rest).1,
            (prStep trans project st pr).2.1 ++
              (runPRs trans project (prStep trans project st pr).1 rest).2.1,
            (runPRs trans project (prStep trans project st pr).1 rest).2.2) := rfl

/-- Unfolding `watchTick`. -/
theorem watchTick_eq (proc : String → ProcResult) (trans : String → TransResult)
    (project : String) (st : WatchState) (tickets : List String)
    (prs : List PRInfo) :
    watchTick proc trans project st tickets prs =
      if (runTickets proc st tickets).2.2 then runTickets proc st tickets
      else ((runPRs trans project (runTickets proc st tickets).1 prs).1,
            (runTickets proc st tickets).2.1 ++
              (runPRs trans project (runTickets proc st tickets).1 prs).2.1,
            (runPRs trans project (runTickets proc st tickets).1 prs).2.2) := rfl

/-- Unfolding `runWatch` on a cons cell. -/
theorem runWatch_cons (proc : String → ProcResult) (trans : String → TransResult)
    (project : String) (st : WatchState) (poll : List String × List PRInfo)
    (rest : List (List String × List PRInfo)) :
    runWatch proc trans project st (poll :: rest) =
      ((runWatch proc trans project
          (watchTick proc trans project st poll.1 poll.2).1 rest).1,
       (watchTick proc trans project st poll.1 poll.2).2 ::
         (runWatch proc trans project
           (watchTick proc trans project st poll.1 poll.2).1 rest).2) := rfl

/-- A ticket already in `processing_tickets` is skipped outright. -/
theorem ticketStep_mem (proc : String → ProcResult) (st : WatchState)
    (key : String) (h : key ∈ st.processing_tickets) :
    ticketStep proc st key = (st, [], false) := by
  simp [ticketStep, h]

/-- A fresh ticket whose processing completes: invoked once, key kept. -/
theorem ticketStep_completed (proc : String → ProcResult) (st : WatchState)
    (key : String) (h : key ∉ st.processing_tickets)
    (hp : proc key = .completed) :
    ticketStep proc st key =
      ({ st with processing_tickets := insert key st.processing_tickets },
       [.procInvoked key], false) := by
  simp [ticketStep, h, hp]

/-- A fresh ticket whose processing is skipped: invoked once, key removed. -/
theorem ticketStep_skipped (proc : String → ProcResult) (st : WatchState)
    (key : String) (h : key ∉ st.processing_tickets)
    (hp : proc key = .skipped) :
    ticketStep proc st key =
      ({ st with processing_tickets :=
           (insert key st.processing_tickets).erase key },
       [.procInvoked key], false) := by
  simp [ticketStep, h, hp]

/-- A fresh ticket whose processing returns a failure result: invoked once,
key removed. -/
theorem ticketStep_failed (proc : String → ProcResult) (st : WatchState)
    (key : String) (h : key ∉ st.processing_tickets)
    (hp : proc key = .failed) :
    ticketStep proc st key =
      ({ st with processing_tickets :=
           (insert key st.processing_tickets).erase key },
       [.procInvoked key], false) := by
  simp [ticketStep, h, hp]

/-- A fresh ticket whose processing raises: invoked once, key kept, tick
aborted. -/
theorem ticketStep_raised (proc : String → ProcResult) (st : WatchState)
    (key : String) (h : key ∉ st.processing_tickets)
    (hp : proc key = .raised) :
    ticketStep proc st key =
      ({ st with processing_tickets := insert key st.processing_tickets },
       [.procInvoked key], true) := by
  simp [ticketStep, h, hp]

/-- The ticket loop never touches `processed_prs`. -/
theorem ticketStep_processed (proc : String → ProcResult) (st : WatchState)
    (key : String) :
    (ticketStep proc st key).1.processed_prs = st.processed_prs := by
  by_cases h : key ∈ st.processing_tickets
  · rw [ticketStep_mem proc st key h]
  · cases hp : proc key
    · rw [ticketStep_completed proc st key h hp]
    · rw [ticketStep_skipped proc st key h hp]
    · rw [ticketStep_failed proc st key h hp]
    · rw [ticketStep_raised proc st key h hp]

/-- `runTickets` never touches `processed_prs`. -/
theorem runTickets_processed (proc : String → ProcResult) :
    ∀ (tickets : List String) (st : WatchState),
      (runTickets proc st tickets).1.processed_prs = st.processed_prs := by
  intro tickets
  induction tickets with
  | nil => intro st; rfl
  | cons key rest ih =>
      intro st
      rw [runTickets_cons]
      by_cases hb : (ticketStep proc st key).2.2 = true
      · rw [if_pos hb]
        exact ticketStep_processed proc st key
      · rw [if_neg hb]
        exact (ih (ticketStep proc st key).1).trans
          (ticketStep_processed proc st key)

/-- An unmerged or already-processed PR is skipped without caching. -/
theorem prStep_skip (trans : String → TransResult) (project : String)
    (st : WatchState) (pr : PRInfo)
    (h : pr.merged_at = none ∨ pr.number ∈ st.processed_prs) :
    prStep trans project st pr = (st, [], false) := by
  simp [prStep, h]

/-- A merged, uncached PR with no correlated ticket key: the number is
cached and the transition capability is not invoked. -/
theorem prStep_nokey (trans : String → TransResult) (project : String)
    (st : WatchState) (pr : PRInfo)
    (h : ¬(pr.merged_at = none ∨ pr.number ∈ st.processed_prs))
    (hk : findTicketKey project (pr.title ++ " " ++ pr.branch) = none) :
    prStep trans project st pr =
      ({ st with processed_prs := insert pr.number st.processed_prs },
       [], false) := by
  simp [prStep, h, hk]

/-- A merged, uncached, correlated PR whose transition succeeds: the ticket
key is discarded from `processing_tickets` and the number cached. -/
theorem prStep_success (trans : String → TransResult) (project : String)
    (st : WatchState) (pr : PRInfo) (key : String)
    (h : ¬(pr.merged_at = none ∨ pr.number ∈ st.processed_prs))
    (hk : findTicketKey project (pr.title ++ " " ++ pr.branch) = some key)
    (ht : trans key = .success) :
    prStep trans project st pr =
      ({ processing_tickets := st.processing_tickets.erase key,
         processed_prs := insert pr.number st.processed_prs },
       [.transInvoked key pr.number], false) := by
  simp [prStep, h, hk, ht]

/-- A merged, uncached, correlated PR whose transition fails: the number is
still cached but `processing_tickets` is left as it was. -/
theorem prStep_failure (trans : String → TransResult) (project : String)
    (st : WatchState) (pr : PRInfo) (key : String)
    (h : ¬(pr.merged_at = none ∨ pr.number ∈ st.processed_prs))
    (hk : findTicketKey project (pr.title ++ " " ++ pr.branch) = some key)
    (ht : trans key = .failure) :
    prStep trans project st pr =
      ({ st with processed_prs := insert pr.number st.processed_prs },
       [.transInvoked key pr.number], false) := by
  simp [prStep, h, hk, ht]

/-- A merged, uncached, correlated PR whose transition raises: the tick is
aborted before the number is cached. -/
theorem prStep_raised (trans : String → TransResult) (project : String)
    (st : WatchState) (pr : PRInfo) (key : String)
    (h : ¬(pr.merged_at = none ∨ pr.number ∈ st.processed_prs))
    (hk : findTicketKey project (pr.title ++ " " ++ pr.branch) = some key)
    (ht : trans key = .raised) :
    prStep trans project st pr =
      (st, [.transInvoked key pr.number], true) := by
  simp [prStep, h, hk, ht]

/-- Transition-invocation counting distributes over trace concatenation. -/
theorem countTrans_append (n : Int) (a b : List WatchEvent) :
    countTrans n (a ++ b) = countTrans n a + countTrans n b := by
  simp [countTrans, List.filter_append]

/-- Processing-invocation counting distributes over trace concatenation. -/
theorem countProc_append (k : String) (a b : List WatchEvent) :
    countProc k (a ++ b) = countProc k a + countProc k b := by
  simp [countProc, List.filter_append]

/-- A processing invocation is not a transition invocation. -/
theorem countTrans_procInvoked (n : Int) (key : String) :
    countTrans n [.procInvoked key] = 0 := rfl

/-- Counting a single transition invocation. -/
theorem countTrans_transInvoked (n m : Int) (key : String) :
    countTrans n [.transInvoked key m] = if m = n then 1 else 0 := by
  by_cases h : m = n <;> simp [countTrans, h]

/-- Counting a single processing invocation. -/
theorem countProc_procInvoked (k k' : String) :
    countProc k [.procInvoked k'] = if k' = k then 1 else 0 := by
  by_cases h : k' = k <;> simp [countProc, h]

/-- The ticket stage emits no transition invocations. -/
theorem runTickets_countTrans (proc : String → ProcResult) (n : Int) :
    ∀ (tickets : List String) (st : WatchState),
      countTrans n (runTickets proc st tickets).2.1 = 0 := by
  intro tickets
  induction tickets with
  | nil => intro st; rfl
  | cons key rest ih =>
      intro st
      rw [runTickets_cons]
      by_cases hmem : key ∈ st.processing_tickets
      · rw [ticketStep_mem proc st key hmem]
        simpa using ih st
      · cases hp : proc key
        · rw [ticketStep_completed proc st key hmem hp]
          simp only [if_neg Bool.false_ne_true]
          rw [countTrans_append, countTrans_procInvoked, ih]
        · rw [ticketStep_skipped proc st key hmem hp]
          simp only [if_neg Bool.false_ne_true]
          rw [countTrans_append, countTrans_procInvoked, ih]
        · rw [ticketStep_failed proc st key hmem hp]
          simp only [if_neg Bool.false_ne_true]
          rw [countTrans_append, countTrans_procInvoked, ih]
        · rw [ticketStep_raised proc st key hmem hp]
          rfl

/-- While a ticket key is in `processing_tickets`, the ticket stage never
invokes the processing capability for it, and the key stays in the set. -/
theorem runTickets_countProc_of_mem (proc : String → ProcResult) (key : String) :
    ∀ (tickets : List String) (st : WatchState),
      key ∈ st.processing_tickets →
      countProc key (runTickets proc st tickets).2.1 = 0 ∧
      key ∈ (runTickets proc st tickets).1.processing_tickets := by
  intro tickets
  induction tickets with
  | nil => intro st h; exact ⟨rfl, h⟩
  | cons k' rest ih =>
      intro st h
      rw [runTickets_cons]
      by_cases hmem : k' ∈ st.processing_tickets
      · rw [ticketStep_mem proc st k' hmem]
        simpa using ih st h
      · have hne : k' ≠ key := fun he => hmem (he ▸ h)
        have hcount : countProc key [WatchEvent.procInvoked k'] = 0 := by
          rw [countProc_procInvoked, if_neg hne]
        cases hp : proc k'
        · rw [ticketStep_completed proc st k' hmem hp]
          simp only [if_neg Bool.false_ne_true]
          have hmem' : key ∈ insert k' st.processing_tickets :=
            Finset.mem_insert_of_mem h
          have := ih { st with processing_tickets := insert k' st.processing_tickets } hmem'
          exact ⟨by rw [countProc_append, hcount, this.1], this.2⟩
        · rw [ticketStep_skipped proc st k' hmem hp]
          simp only [if_neg Bool.false_ne_true]
          have hmem' : key ∈ (insert k' st.processing_tickets).erase k' :=
            Finset.mem_erase.mpr ⟨Ne.symm hne, Finset.mem_insert_of_mem h⟩
          have := ih { st with processing_tickets :=
            (insert k' st.processing_tickets).erase k' } hmem'
          exact ⟨by rw [countProc_append, hcount, this.1], this.2⟩
        · rw [ticketStep_failed proc st k' hmem hp]
          simp only [if_neg Bool.false_ne_true]
          have hmem' : key ∈ (insert k' st.processing_tickets).erase k' :=
            Finset.mem_erase.mpr ⟨Ne.symm hne, Finset.mem_insert_of_mem h⟩
          have := ih { st with processing_tickets :=
            (insert k' st.processing_tickets).erase k' } hmem'
          exact ⟨by rw [countProc_append, hcount, this.1], this.2⟩
        · rw [ticketStep_raised proc st k' hmem hp]
          exact ⟨hcount, Finset.mem_insert_of_mem h⟩

/-- C3: per observed ticket in the trigger-detection loop — a key already in
`processing_tickets` is skipped without invoking the processing capability;
a `completed` ticket is invoked at most once over the whole stage (the key
stays in `processing_tickets`, so later observations are skipped); after a
`completed` result the key remains in `processing_tickets`; after a
`skipped` or failure result the key is removed immediately. -/
theorem trigger_dedup_processing (proc : String → ProcResult) (st : WatchState)
    (key : String) (tickets : List String) :
    (key ∈ st.processing_tickets → ticketStep proc st key = (st, [], false)) ∧
    (proc key = .completed →
       countProc key (runTickets proc st tickets).2.1 ≤ 1) ∧
    (key ∉ st.processing_tickets → proc key = .completed →
       key ∈ (ticketStep proc st key).1.processing_tickets) ∧
    (key ∉ st.processing_tickets →
       (proc key = .skipped ∨ proc key = .failed) →
       key ∉ (ticketStep proc st key).1.processing_tickets ∧
       (ticketStep proc st key).1.processing_tickets = st.processing_tickets) := by
  refine ⟨fun h => ticketStep_mem proc st key h, ?_, ?_, ?_⟩
  · intro hp
    induction tickets generalizing st with
    | nil => exact Nat.zero_le 1
    | cons k' rest ih =>
        rw [runTickets_cons]
        by_cases hmem : k' ∈ st.processing_tickets
        · rw [ticketStep_mem proc st k' hmem]
          simpa using ih st
        · by_cases hkey : k' = key
          · subst hkey
            rw [ticketStep_completed proc st k' hmem hp]
            simp only [if_neg Bool.false_ne_true]
            rw [countProc_append, countProc_procInvoked, if_pos rfl]
            have hrest := (runTickets_countProc_of_mem proc k' rest
              { st with processing_tickets := insert k' st.processing_tickets }
              (Finset.mem_insert_self k' st.processing_tickets)).1
            rw [hrest]
          · have hcount : countProc key [WatchEvent.procInvoked k'] = 0 := by
              rw [countProc_procInvoked, if_neg hkey]
            cases hpk : proc k'
            · rw [ticketStep_completed proc st k' hmem hpk]
              simp only [if_neg Bool.false_ne_true]
              rw [countProc_append, hcount, Nat.zero_add]
              exact ih _
            · rw [ticketStep_skipped proc st k' hmem hpk]
              simp only [if_neg Bool.false_ne_true]
              rw [countProc_append, hcount, Nat.zero_add]
              exact ih _
            · rw [ticketStep_failed proc st k' hmem hpk]
              simp only [if_neg Bool.false_ne_true]
              rw [countProc_append, hcount, Nat.zero_add]
              exact ih _
            · rw [ticketStep_raised proc st k' hmem hpk, if_pos rfl]
              exact le_of_eq_of_le hcount (Nat.zero_le 1)
  · intro h hp
    rw [ticketStep_completed proc st key h hp]
    exact Finset.mem_insert_self key st.processing_tickets
  · intro h hp
    rcases hp with hp | hp
    · rw [ticketStep_skipped proc st key h hp]
      exact ⟨Finset.not_mem_erase key _, by rw [Finset.erase_insert h]⟩
    · rw [ticketStep_failed proc st key h hp]
      exact ⟨Finset.not_mem_erase key _, by rw [Finset.erase_insert h]⟩

/-- C3 witness: the theorem exercised at concrete states — a key already
present is skipped; a completed key observed twice in one stage is invoked
once; a completed fresh key stays in the set; a skipped fresh key is
removed. -/
theorem trigger_dedup_processing_witness :
    ticketStep (fun _ => .completed) ⟨{"PROJ-1"}, ∅⟩ "PROJ-1" =
      (⟨{"PROJ-1"}, ∅⟩, [], false) ∧
    countProc "PROJ-2"
      (runTickets (fun _ => .completed) ⟨∅, ∅⟩ ["PROJ-2", "PROJ-2"]).2.1 ≤ 1 ∧
    "PROJ-2" ∈
      (ticketStep (fun _ => .completed) ⟨∅, ∅⟩ "PROJ-2").1.processing_tickets ∧
    ("PROJ-3" ∉
      (ticketStep (fun _ => .skipped) ⟨∅, ∅⟩ "PROJ-3").1.processing_tickets ∧
     (ticketStep (fun _ => .skipped) ⟨∅, ∅⟩ "PROJ-3").1.processing_tickets =
       (∅ : Finset String)) :=
  ⟨(trigger_dedup_processing (fun _ => .completed) ⟨{"PROJ-1"}, ∅⟩ "PROJ-1"
      []).1 (by decide),
   (trigger_dedup_processing (fun _ => .completed) ⟨∅, ∅⟩ "PROJ-2"
      ["PROJ-2", "PROJ-2"]).2.1 rfl,
   (trigger_dedup_processing (fun _ => .completed) ⟨∅, ∅⟩ "PROJ-2"
      []).2.2.1 (by decide) rfl,
   (trigger_dedup_processing (fun _ => .skipped) ⟨∅, ∅⟩ "PROJ-3"
      []).2.2.2 (by decide) (Or.inl rfl)⟩

/-- If every polled closed PR carrying number `n` lacks a merge timestamp,
the PR stage neither caches `n` nor invokes the transition capability for
it: `n` will be re-evaluated on every later poll. -/
theorem runPRs_unmerged_not_cached (trans : String → TransResult)
    (project : String) (n : Int) :
    ∀ (prs : List PRInfo) (st : WatchState),
      (∀ p ∈ prs, p.number = n → p.merged_at = none) →
      n ∉ st.processed_prs →
      n ∉ (runPRs trans project st prs).1.processed_prs ∧
      countTrans n (runPRs trans project st prs).2.1 = 0 := by
  intro prs
  induction prs with
  | nil => intro st _ hn; exact ⟨hn, rfl⟩
  | cons pr rest ih =>
      intro st hall hn
      have hall' : ∀ p ∈ rest, p.number = n → p.merged_at = none :=
        fun p hp => hall p (List.mem_cons_of_mem pr hp)
      rw [runPRs_cons]
      by_cases hskip : pr.merged_at = none ∨ pr.number ∈ st.processed_prs
      · rw [prStep_skip trans project st pr hskip]
        simpa using ih st hall' hn
      · have hne : pr.number ≠ n := by
          intro he
          exact (not_or.mp hskip).1 (hall pr (List.mem_cons_self pr rest) he)
        have hcount1 : ∀ key, countTrans n [WatchEvent.transInvoked key pr.number] = 0 := by
          intro key
          rw [countTrans_transInvoked, if_neg hne]
        have hn' : n ∉ insert pr.number st.processed_prs := by
          simp [Finset.mem_insert, hn, Ne.symm hne]
        cases hk : findTicketKey project (pr.title ++ " " ++ pr.branch) with
        | none =>
            rw [prStep_nokey trans project st pr hskip hk]
            simp only [if_neg Bool.false_ne_true]
            have := ih ⟨st.processing_tickets, insert pr.number st.processed_prs⟩
              hall' hn'
            exact ⟨this.1, by rw [countTrans_append, this.2]; rfl⟩
        | some key =>
            cases ht : trans key
            · rw [prStep_success trans project st pr key hskip hk ht]
              simp only [if_neg Bool.false_ne_true]
              have := ih ⟨st.processing_tickets.erase key,
                insert pr.number st.processed_prs⟩ hall' hn'
              exact ⟨this.1, by rw [countTrans_append, hcount1 key, this.2]⟩
            · rw [prStep_failure trans project st pr key hskip hk ht]
              simp only [if_neg Bool.false_ne_true]
              have := ih ⟨st.processing_tickets, insert pr.number st.processed_prs⟩
                hall' hn'
              exact ⟨this.1, by rw [countTrans_append, hcount1 key, this.2]⟩
            · rw [prStep_raised trans project st pr key hskip hk ht, if_pos rfl]
              exact ⟨hn, hcount1 key⟩

/-- C5: a closed PR with no merge timestamp is skipped without invoking the
transition capability and without caching its number (state, trace and
aborted flag unchanged), and — lifted over the whole PR stage — a number
seen only on unmerged PRs is never cached nor transitioned, so it is
re-evaluated on every subsequent poll; by contrast a merged PR with no
correlated ticket key does get its number cached in `processed_prs`. -/
theorem closed_unmerged_never_transitioned (trans : String → TransResult)
    (project : String) (st : WatchState) (pr : PRInfo) (prs : List PRInfo)
    (n : Int) :
    (pr.merged_at = none → prStep trans project st pr = (st, [], false)) ∧
    ((∀ p ∈ prs, p.number = n → p.merged_at = none) → n ∉ st.processed_prs →
       n ∉ (runPRs trans project st prs).1.processed_prs ∧
       countTrans n (runPRs trans project st prs).2.1 = 0) ∧
    (pr.merged_at ≠ none → pr.number ∉ st.processed_prs →
       findTicketKey project (pr.title ++ " " ++ pr.branch) = none →
       prStep trans project st pr =
         ({ st with processed_prs := insert pr.number st.processed_prs },
          [], false)) := by
  refine ⟨?_, ?_, ?_⟩
  · intro h
    exact prStep_skip trans project st pr (Or.inl h)
  · intro hall hn
    exact runPRs_unmerged_not_cached trans project n prs st hall hn
  · intro hm hn hk
    exact prStep_nokey trans project st pr (not_or.mpr ⟨hm, hn⟩) hk

/-- C5 witness: PR #7 closed without a merge timestamp is skipped and stays
uncached through the stage; merged PR #8 without a ticket key is cached. -/
theorem closed_unmerged_never_transitioned_witness :
    prStep (fun _ => .success) "PROJ" ⟨∅, ∅⟩
      ⟨7, none, "close without merge", "chore/tidy"⟩ = (⟨∅, ∅⟩, [], false) ∧
    ((7 : Int) ∉ (runPRs (fun _ => .success) "PROJ" ⟨∅, ∅⟩
       [⟨7, none, "close without merge", "chore/tidy"⟩]).1.processed_prs ∧
     countTrans 7 (runPRs (fun _ => .success) "PROJ" ⟨∅, ∅⟩
       [⟨7, none, "close without merge", "chore/tidy"⟩]).2.1 = 0) ∧
    prStep (fun _ => .success) "PROJ" ⟨∅, ∅⟩
      ⟨8, some "2024-01-01", "unrelated change", "chore/other"⟩ =
      (⟨∅, insert 8 ∅⟩, [], false) :=
  ⟨(closed_unmerged_never_transitioned (fun _ => .success) "PROJ" ⟨∅, ∅⟩
      ⟨7, none, "close without merge", "chore/tidy"⟩ [] 0).1 rfl,
   (closed_unmerged_never_transitioned (fun _ => .success) "PROJ" ⟨∅, ∅⟩
      ⟨7, none, "close without merge", "chore/tidy"⟩
      [⟨7, none, "close without merge", "chore/tidy"⟩] 7).2.1
      (by intro p hp _; simp at hp; rw [hp]) (by decide),
   (closed_unmerged_never_transitioned (fun _ => .success) "PROJ" ⟨∅, ∅⟩
      ⟨8, some "2024-01-01", "unrelated change", "chore/other"⟩ [] 0).2.2
      (by decide) (by decide) (by decide)⟩

/-- Once a PR number is cached in `processed_prs`, the PR stage never
invokes the transition capability for it again and the number stays cached. -/
theorem runPRs_countTrans_of_mem (trans : String → TransResult)
    (project : String) (n : Int) :
    ∀ (prs : List PRInfo) (st : WatchState), n ∈ st.processed_prs →
      countTrans n (runPRs trans project st prs).2.1 = 0 ∧
      n ∈ (runPRs trans project st prs).1.processed_prs := by
  intro prs
  induction prs with
  | nil => intro st h; exact ⟨rfl, h⟩
  | cons pr rest ih =>
      intro st h
      rw [runPRs_cons]
      by_cases hskip : pr.merged_at = none ∨ pr.number ∈ st.processed_prs
      · rw [prStep_skip trans project st pr hskip]
        simpa using ih st h
      · have hne : pr.number ≠ n := fun he => (not_or.mp hskip).2 (he ▸ h)
        have hcount1 : ∀ key, countTrans n [WatchEvent.transInvoked key pr.number] = 0 := by
          intro key
          rw [countTrans_transInvoked, if_neg hne]
        have hmem : n ∈ insert pr.number st.processed_prs :=
          Finset.mem_insert_of_mem h
        cases hk : findTicketKey project (pr.title ++ " " ++ pr.branch) with
        | none =>
            rw [prStep_nokey trans project st pr hskip hk]
            simp only [if_neg Bool.false_ne_true]
            have := ih ⟨st.processing_tickets, insert pr.number st.processed_prs⟩ hmem
            exact ⟨by rw [countTrans_append, this.1]; rfl, this.2⟩
        | some key =>
            cases ht : trans key
            · rw [prStep_success trans project st pr key hskip hk ht]
              simp only [if_neg Bool.false_ne_true]
              have := ih ⟨st.processing_tickets.erase key,
                insert pr.number st.processed_prs⟩ hmem
              exact ⟨by rw [countTrans_append, hcount1 key, this.1], this.2⟩
            · rw [prStep_failure trans project st pr key hskip hk ht]
              simp only [if_neg Bool.false_ne_true]
              have := ih ⟨st.processing_tickets, insert pr.number st.processed_prs⟩ hmem
              exact ⟨by rw [countTrans_append, hcount1 key, this.1], this.2⟩
            · rw [prStep_raised trans project st pr key hskip hk ht, if_pos rfl]
              exact ⟨hcount1 key, h⟩

/-- Within one PR stage, assuming the transition capability returns results
(never raises), each PR number sees at most one transition invocation, and
an invoked number ends up cached. -/
theorem runPRs_atMostOnce (trans : String → TransResult) (project : String)
    (n : Int) (hr : ∀ k, trans k ≠ .raised) :
    ∀ (prs : List PRInfo) (st : WatchState),
      countTrans n (runPRs trans project st prs).2.1 ≤ 1 ∧
      (1 ≤ countTrans n (runPRs trans project st prs).2.1 →
        n ∈ (runPRs trans project st prs).1.processed_prs) := by
  intro prs
  induction prs with
  | nil =>
      intro st
      refine ⟨Nat.zero_le 1, fun h => ?_⟩
      simp [runPRs, countTrans] at h
  | cons pr rest ih =>
      intro st
      rw [runPRs_cons]
      by_cases hskip : pr.merged_at = none ∨ pr.number ∈ st.processed_prs
      · rw [prStep_skip trans project st pr hskip]
        simpa using ih st
      · by_cases heq : pr.number = n
        · subst heq
          have hmem : pr.number ∈ insert pr.number st.processed_prs :=
            Finset.mem_insert_self pr.number st.processed_prs
          cases hk : findTicketKey project (pr.title ++ " " ++ pr.branch) with
          | none =>
              rw [prStep_nokey trans project st pr hskip hk]
              simp only [if_neg Bool.false_ne_true]
              have := runPRs_countTrans_of_mem trans project pr.number rest
                ⟨st.processing_tickets, insert pr.number st.processed_prs⟩ hmem
              refine ⟨?_, fun _ => this.2⟩
              rw [countTrans_append, this.1]
              exact Nat.zero_le 1
          | some key =>
              cases ht : trans key
              · rw [prStep_success trans project st pr key hskip hk ht]
                simp only [if_neg Bool.false_ne_true]
                have := runPRs_countTrans_of_mem trans project pr.number rest
                  ⟨st.processing_tickets.erase key,
                   insert pr.number st.processed_prs⟩ hmem
                refine ⟨?_, fun _ => this.2⟩
                rw [countTrans_append, this.1, countTrans_transInvoked, if_pos rfl]
              · rw [prStep_failure trans project st pr key hskip hk ht]
                simp only [if_neg Bool.false_ne_true]
                have := runPRs_countTrans_of_mem trans project pr.number rest
                  ⟨st.processing_tickets, insert pr.number st.processed_prs⟩ hmem
                refine ⟨?_, fun _ => this.2⟩
                rw [countTrans_append, this.1, countTrans_transInvoked, if_pos rfl]
              · exact absurd ht (hr key)
        · have hcount1 : ∀ key, countTrans n [WatchEvent.transInvoked key pr.number] = 0 := by
            intro key
            rw [countTrans_transInvoked, if_neg heq]
          cases hk : findTicketKey project (pr.title ++ " " ++ pr.branch) with
          | none =>
              rw [prStep_nokey trans project st pr hskip hk]
              simp only [if_neg Bool.false_ne_true]
              have := ih ⟨st.processing_tickets, insert pr.number st.processed_prs⟩
              exact ⟨by rw [countTrans_append]; simpa [countTrans] using this.1,
                fun h => this.2
                  (by rw [countTrans_append] at h; simpa [countTrans] using h)⟩
          | some key =>
              cases ht : trans key
              · rw [prStep_success trans project st pr key hskip hk ht]
                simp only [if_neg Bool.false_ne_true]
                have := ih ⟨st.processing_tickets.erase key,
                  insert pr.number st.processed_prs⟩
                refine ⟨?_, fun h => this.2 ?_⟩
                · rw [countTrans_append, hcount1 key]
                  simpa [countTrans] using this.1
                · rw [countTrans_append, hcount1 key] at h
                  simpa [countTrans] using h
              · rw [prStep_failure trans project st pr key hskip hk ht]
                simp only [if_neg Bool.false_ne_true]
                have := ih ⟨st.processing_tickets, insert pr.number st.processed_prs⟩
                refine ⟨?_, fun h => this.2 ?_⟩
                · rw [countTrans_append, hcount1 key]
                  simpa [countTrans] using this.1
                · rw [countTrans_append, hcount1 key] at h
                  simpa [countTrans] using h
              · exact absurd ht (hr key)

/-- Per tick: at most one transition invocation per PR number (if the
transition capability never raises); a number cached before the tick sees
none and stays cached; an invoked number is cached after the tick. -/
theorem watchTick_atMostOnce (proc : String → ProcResult)
    (trans : String → TransResult) (project : String) (n : Int)
    (hr : ∀ k, trans k ≠ .raised) (st : WatchState) (tickets : List String)
    (prs : List PRInfo) :
    countTrans n (watchTick proc trans project st tickets prs).2.1 ≤ 1 ∧
    (n ∈ st.processed_prs →
      countTrans n (watchTick proc trans project st tickets prs).2.1 = 0) ∧
    (1 ≤ countTrans n (watchTick proc trans project st tickets prs).2.1 →
      n ∈ (watchTick proc trans project st tickets prs).1.processed_prs) ∧
    (n ∈ st.processed_prs →
      n ∈ (watchTick proc trans project st tickets prs).1.processed_prs) := by
  rw [watchTick_eq]
  by_cases hb : (runTickets proc st tickets).2.2 = true
  · rw [if_pos hb]
    have h0 := runTickets_countTrans proc n tickets st
    have hst := runTickets_processed proc tickets st
    refine ⟨le_of_eq_of_le h0 (Nat.zero_le 1), fun _ => h0,
      fun h => absurd h (by rw [h0]; omega), fun h => ?_⟩
    rw [hst]
    exact h
  · rw [if_neg hb]
    have h0 := runTickets_countTrans proc n tickets st
    have hst := runTickets_processed proc tickets st
    have hpr := runPRs_atMostOnce trans project n hr prs (runTickets proc st tickets).1
    refine ⟨?_, fun hmem => ?_, fun h => ?_, fun hmem => ?_⟩
    · rw [countTrans_append, h0, Nat.zero_add]
      exact hpr.1
    · rw [countTrans_append, h0, Nat.zero_add]
      exact (runPRs_countTrans_of_mem trans project n prs _ (hst ▸ hmem)).1
    · rw [countTrans_append, h0, Nat.zero_add] at h
      exact hpr.2 h
    · exact (runPRs_countTrans_of_mem trans project n prs _ (hst ▸ hmem)).2

/-- Unfolding the run trace on a cons cell of polls. -/
theorem watchTrace_cons (proc : String → ProcResult)
    (trans : String → TransResult) (project : String) (st : WatchState)
    (poll : List String × List PRInfo)
    (rest : List (List String × List PRInfo)) :
    watchTrace proc trans project st (poll :: rest) =
      (watchTick proc trans project st poll.1 poll.2).2.1 ++
        watchTrace proc trans project
          (watchTick proc trans project st poll.1 poll.2).1 rest := by
  simp [watchTrace, runWatch_cons]

/-- Over a whole run: at most one transition invocation per PR number (if
the transition capability never raises), none once the number is cached,
and an invoked number ends the run cached. -/
theorem runWatch_atMostOnce (proc : String → ProcResult)
    (trans : String → TransResult) (project : String) (n : Int)
    (hr : ∀ k, trans k ≠ .raised) :
    ∀ (polls : List (List String × List PRInfo)) (st : WatchState),
      countTrans n (watchTrace proc trans project st polls) ≤ 1 ∧
      (n ∈ st.processed_prs →
        countTrans n (watchTrace proc trans project st polls) = 0) ∧
      (1 ≤ countTrans n (watchTrace proc trans project st polls) →
        n ∈ (runWatch proc trans project st polls).1.processed_prs) ∧
      (n ∈ st.processed_prs →
        n ∈ (runWatch proc trans project st polls).1.processed_prs) := by
  intro polls
  induction polls with
  | nil =>
      intro st
      refine ⟨Nat.zero_le 1, fun _ => rfl, fun h => ?_, fun h => h⟩
      simp [watchTrace, runWatch, countTrans] at h
  | cons poll rest ih =>
      intro st
      have htick := watchTick_atMostOnce proc trans project n hr st poll.1 poll.2
      have hrest := ih (watchTick proc trans project st poll.1 poll.2).1
      rw [watchTrace_cons, countTrans_append, runWatch_cons]
      refine ⟨?_, fun hmem => ?_, fun h => ?_, fun hmem => ?_⟩
      · by_cases h1 : 1 ≤ countTrans n (watchTick proc trans project st poll.1 poll.2).2.1
        · have hmem' := htick.2.2.1 h1
          have := hrest.2.1 hmem'
          omega
        · have : countTrans n (watchTick proc trans project st poll.1 poll.2).2.1 = 0 := by
            omega
          rw [this, Nat.zero_add]
          exact hrest.1
      · rw [htick.2.1 hmem, Nat.zero_add]
        exact hrest.2.1 (htick.2.2.2 hmem)
      · by_cases h1 : 1 ≤ countTrans n (watchTick proc trans project st poll.1 poll.2).2.1
        · exact hrest.2.2.2 (htick.2.2.1 h1)
        · have hz : countTrans n (watchTick proc trans project st poll.1 poll.2).2.1 = 0 := by
            omega
          rw [hz, Nat.zero_add] at h
          exact hrest.2.2.1 h
      · exact hrest.2.2.2 (htick.2.2.2 hmem)

/-- C4 counterexample: PR #5 is merged and correlates to `PROJ-1`, which is
in `processing_tickets`; the transition capability is invoked and fails.
The PR number is cached, but — against the claim — `PROJ-1` is still in
`processing_tickets` after the invocation (the code only discards the key
on success). -/
theorem merge_transition_counterexample :
    countTrans 5 (prStep (fun _ => .failure) "PROJ"
      ⟨{"PROJ-1"}, ∅⟩ ⟨5, some "2024-01-01", "fix PROJ-1", "fix/proj-1"⟩).2.1
      = 1 ∧
    (5 : Int) ∈ (prStep (fun _ => .failure) "PROJ"
      ⟨{"PROJ-1"}, ∅⟩
      ⟨5, some "2024-01-01", "fix PROJ-1", "fix/proj-1"⟩).1.processed_prs ∧
    "PROJ-1" ∈ (prStep (fun _ => .failure) "PROJ"
      ⟨{"PROJ-1"}, ∅⟩
      ⟨5, some "2024-01-01", "fix PROJ-1", "fix/proj-1"⟩).1.processing_tickets := by
  decide

/-- C4 amended: for every merged PR correlating to ticket key `key`, the
transition capability is invoked at most once per run for the PR's number
(provided the transition returns a result rather than raising); after a
*successful* invocation the key is absent from `processing_tickets`, while
after a failure the key remains; in both outcomes the PR number is added to
`processed_prs`. -/
theorem merge_transition_amended (proc : String → ProcResult)
    (trans : String → TransResult) (project : String) (st : WatchState)
    (pr : PRInfo) (key : String) (polls : List (List String × List PRInfo))
    (hm : pr.merged_at ≠ none)
    (hk : findTicketKey project (pr.title ++ " " ++ pr.branch) = some key) :
    ((∀ k, trans k ≠ .raised) →
       countTrans pr.number (watchTrace proc trans project st polls) ≤ 1) ∧
    (pr.number ∉ st.processed_prs →
       (trans key = .success →
          prStep trans project st pr =
            ({ processing_tickets := st.processing_tickets.erase key,
               processed_prs := insert pr.number st.processed_prs },
             [.transInvoked key pr.number], false) ∧
          key ∉ (prStep trans project st pr).1.processing_tickets ∧
          pr.number ∈ (prStep trans project st pr).1.processed_prs) ∧
       (trans key = .failure →
          prStep trans project st pr =
            ({ st with processed_prs := insert pr.number st.processed_prs },
             [.transInvoked key pr.number], false) ∧
          (prStep trans project st pr).1.processing_tickets =
            st.processing_tickets ∧
          pr.number ∈ (prStep trans project st pr).1.processed_prs)) := by
  refine ⟨fun hr => (runWatch_atMostOnce proc trans project pr.number hr polls st).1,
    fun hn => ⟨fun ht => ?_, fun ht => ?_⟩⟩
  · have hstep := prStep_success trans project st pr key
      (not_or.mpr ⟨hm, hn⟩) hk ht
    rw [hstep]
    exact ⟨rfl, Finset.not_mem_erase key st.processing_tickets,
      Finset.mem_insert_self pr.number st.processed_prs⟩
  · have hstep := prStep_failure trans project st pr key
      (not_or.mpr ⟨hm, hn⟩) hk ht
    rw [hstep]
    exact ⟨rfl, rfl, Finset.mem_insert_self pr.number st.processed_prs⟩

/-- C4 amended witness: the theorem applied to merged PR #5 correlating to
`PROJ-1`, once with a succeeding transition (key discarded) and once with a
failing one (key kept), plus the run-level bound with a never-raising
transition, each hypothesis discharged by evaluation. -/
theorem merge_transition_amended_witness :
    countTrans 5 (watchTrace (fun _ => .completed) (fun _ => .failure) "PROJ"
      ⟨{"PROJ-1"}, ∅⟩
      [(["PROJ-1"], [⟨5, some "2024-01-01", "fix PROJ-1", "fix/proj-1"⟩]),
       (["PROJ-1"], [⟨5, some "2024-01-01", "fix PROJ-1", "fix/proj-1"⟩])]) ≤ 1 ∧
    ("PROJ-1" ∉ (prStep (fun _ => .success) "PROJ" ⟨{"PROJ-1"}, ∅⟩
       ⟨5, some "2024-01-01", "fix PROJ-1", "fix/proj-1"⟩).1.processing_tickets ∧
     (5 : Int) ∈ (prStep (fun _ => .success) "PROJ" ⟨{"PROJ-1"}, ∅⟩
       ⟨5, some "2024-01-01", "fix PROJ-1", "fix/proj-1"⟩).1.processed_prs) ∧
    ((prStep (fun _ => .failure) "PROJ" ⟨{"PROJ-1"}, ∅⟩
       ⟨5, some "2024-01-01", "fix PROJ-1", "fix/proj-1"⟩).1.processing_tickets =
       ({"PROJ-1"} : Finset String) ∧
     (5 : Int) ∈ (prStep (fun _ => .failure) "PROJ" ⟨{"PROJ-1"}, ∅⟩
       ⟨5, some "2024-01-01", "fix PROJ-1", "fix/proj-1"⟩).1.processed_prs) :=
  ⟨(merge_transition_amended (fun _ => .completed) (fun _ => .failure) "PROJ"
      ⟨{"PROJ-1"}, ∅⟩ ⟨5, some "2024-01-01", "fix PROJ-1", "fix/proj-1"⟩
      "PROJ-1"
      [(["PROJ-1"], [⟨5, some "2024-01-01", "fix PROJ-1", "fix/proj-1"⟩]),
       (["PROJ-1"], [⟨5, some "2024-01-01", "fix PROJ-1", "fix/proj-1"⟩])]
      (by decide) (by decide)).1 (fun k => by decide),
   (((merge_transition_amended (fun _ => .completed) (fun _ => .success) "PROJ"
      ⟨{"PROJ-1"}, ∅⟩ ⟨5, some "2024-01-01", "fix PROJ-1", "fix/proj-1"⟩
      "PROJ-1" [] (by decide) (by decide)).2 (by decide)).1 rfl).2,
   (let h := ((merge_transition_amended (fun _ => .completed)
      (fun _ => .failure) "PROJ" ⟨{"PROJ-1"}, ∅⟩
      ⟨5, some "2024-01-01", "fix PROJ-1", "fix/proj-1"⟩
      "PROJ-1" [] (by decide) (by decide)).2 (by decide)).2 rfl
    ⟨h.2.1, h.2.2⟩)⟩

/-- The ticket stage never aborts when no processing invocation raises. -/
theorem runTickets_no_abort (proc : String → ProcResult) :
    ∀ (tickets : List String) (st : WatchState),
      (∀ k ∈ tickets, proc k ≠ .raised) →
      (runTickets proc st tickets).2.2 = false := by
  intro tickets
  induction tickets with
  | nil => intro st _; rfl
  | cons key rest ih =>
      intro st h
      have hrest : ∀ k ∈ rest, proc k ≠ .raised :=
        fun k hk => h k (List.mem_cons_of_mem key hk)
      rw [runTickets_cons]
      by_cases hmem : key ∈ st.processing_tickets
      · rw [ticketStep_mem proc st key hmem]
        simpa using ih st hrest
      · cases hp : proc key
        · rw [ticketStep_completed proc st key hmem hp]
          simp only [if_neg Bool.false_ne_true]
          exact ih _ hrest
        · rw [ticketStep_skipped proc st key hmem hp]
          simp only [if_neg Bool.false_ne_true]
          exact ih _ hrest
        · rw [ticketStep_failed proc st key hmem hp]
          simp only [if_neg Bool.false_ne_true]
          exact ih _ hrest
        · exact absurd hp (h key (List.mem_cons_self key rest))

/-- Every polled tick produces an outcome: the loop never terminates early. -/
theorem runWatch_length (proc : String → ProcResult)
    (trans : String → TransResult) (project : String) :
    ∀ (polls : List (List String × List PRInfo)) (st : WatchState),
      (runWatch proc trans project st polls).2.length = polls.length := by
  intro polls
  induction polls with
  | nil => intro st; rfl
  | cons poll rest ih =>
      intro st
      rw [runWatch_cons]
      simp [ih]

/-- C6 counterexample: processing of `PROJ-1` raises while `PROJ-2` is also
pending and a merged, correlated PR #5 awaits transition.  Against the
claim, the tick does not continue: `PROJ-2` is never invoked, the merge
stage never runs (no transition invocation), and the tick is aborted —
only `PROJ-1` was invoked. -/
theorem per_item_failure_counterexample :
    countProc "PROJ-2" (watchTick
      (fun k => if k = "PROJ-1" then .raised else .completed)
      (fun _ => .success) "PROJ" ⟨∅, ∅⟩ ["PROJ-1", "PROJ-2"]
      [⟨5, some "2024-01-01", "fix PROJ-1", "fix/proj-1"⟩]).2.1 = 0 ∧
    countTrans 5 (watchTick
      (fun k => if k = "PROJ-1" then .raised else .completed)
      (fun _ => .success) "PROJ" ⟨∅, ∅⟩ ["PROJ-1", "PROJ-2"]
      [⟨5, some "2024-01-01", "fix PROJ-1", "fix/proj-1"⟩]).2.1 = 0 ∧
    (watchTick (fun k => if k = "PROJ-1" then .raised else .completed)
      (fun _ => .success) "PROJ" ⟨∅, ∅⟩ ["PROJ-1", "PROJ-2"]
      [⟨5, some "2024-01-01", "fix PROJ-1", "fix/proj-1"⟩]).2.2 = true ∧
    countProc "PROJ-1" (watchTick
      (fun k => if k = "PROJ-1" then .raised else .completed)
      (fun _ => .success) "PROJ" ⟨∅, ∅⟩ ["PROJ-1", "PROJ-2"]
      [⟨5, some "2024-01-01", "fix PROJ-1", "fix/proj-1"⟩]).2.1 = 1 := by
  decide

/-- C6 amended: an error *result* from the processing capability does not
abort the tick — the loop continues to the next ticket with the dedup state
restored — and a tick in which no invocation raises reaches the
merge-transition stage.  A *thrown* error, by contrast, is caught at the
tick boundary: it aborts the remaining tickets and the merge stage of that
tick (the failing key stays in `processing_tickets`), but it does not
terminate the orchestrator — every polled tick still produces an outcome. -/
theorem per_item_failure_amended (proc : String → ProcResult)
    (trans : String → TransResult) (project : String) (st : WatchState)
    (key : String) (tickets : List String) (prs : List PRInfo)
    (polls : List (List String × List PRInfo)) :
    (proc key = .failed → key ∉ st.processing_tickets →
       runTickets proc st (key :: tickets) =
         ((runTickets proc st tickets).1,
          .procInvoked key :: (runTickets proc st tickets).2.1,
          (runTickets proc st tickets).2.2)) ∧
    ((∀ k ∈ tickets, proc k ≠ .raised) →
       (runTickets proc st tickets).2.2 = false ∧
       watchTick proc trans project st tickets prs =
         ((runPRs trans project (runTickets proc st tickets).1 prs).1,
          (runTickets proc st tickets).2.1 ++
            (runPRs trans project (runTickets proc st tickets).1 prs).2.1,
          (runPRs trans project (runTickets proc st tickets).1 prs).2.2)) ∧
    (proc key = .raised → key ∉ st.processing_tickets →
       watchTick proc trans project st (key :: tickets) prs =
         ({ st with processing_tickets := insert key st.processing_tickets },
          [.procInvoked key], true)) ∧
    (runWatch proc trans project st polls).2.length = polls.length := by
  refine ⟨fun hp h => ?_, fun h => ?_, fun hp h => ?_,
    runWatch_length proc trans project polls st⟩
  · rw [runTickets_cons, ticketStep_failed proc st key h hp]
    simp only [if_neg Bool.false_ne_true]
    rw [Finset.erase_insert h]
    rfl
  · have hab := runTickets_no_abort proc tickets st h
    refine ⟨hab, ?_⟩
    rw [watchTick_eq, if_neg (by rw [hab]; exact Bool.false_ne_true)]
  · have habort : runTickets proc st (key :: tickets) =
        ({ st with processing_tickets := insert key st.processing_tickets },
         [.procInvoked key], true) := by
      rw [runTickets_cons, ticketStep_raised proc st key h hp, if_pos rfl]
    rw [watchTick_eq, habort, if_pos rfl]

/-- C6 amended witness: the amended theorem exercised at concrete inputs —
a failure result on `PROJ-1` still lets `PROJ-2` be invoked in the same
stage; a no-raise tick reaches the PR stage; a raising tick aborts; a run
whose first tick raises still executes its second tick. -/
theorem per_item_failure_amended_witness :
    countProc "PROJ-2"
      (runTickets (fun _ => .failed) ⟨∅, ∅⟩ ["PROJ-1", "PROJ-2"]).2.1 = 1 ∧
    (runTickets (fun _ => .completed) ⟨∅, ∅⟩ ["PROJ-2"]).2.2 = false ∧
    (watchTick (fun _ => .raised) (fun _ => .success) "PROJ" ⟨∅, ∅⟩
      ["PROJ-1"] [⟨5, some "2024-01-01", "fix PROJ-1", "fix/proj-1"⟩] =
      (⟨insert "PROJ-1" ∅, ∅⟩, [.procInvoked "PROJ-1"], true)) ∧
    (runWatch (fun _ => .raised) (fun _ => .success) "PROJ" ⟨∅, ∅⟩
      [(["PROJ-1"], []), (["PROJ-2"], [])]).2.length = 2 := by
  refine ⟨?_, ?_, ?_, ?_⟩
  · rw [(per_item_failure_amended (fun _ => .failed) (fun _ => .success)
      "PROJ" ⟨∅, ∅⟩ "PROJ-1" ["PROJ-2"] [] []).1 rfl (by decide)]
    decide
  · exact ((per_item_failure_amended (fun _ => .completed) (fun _ => .success)
      "PROJ" ⟨∅, ∅⟩ "PROJ-2" ["PROJ-2"] [] []).2.1 (by decide)).1
  · exact (per_item_failure_amended (fun _ => .raised) (fun _ => .success)
      "PROJ" ⟨∅, ∅⟩ "PROJ-1" []
      [⟨5, some "2024-01-01", "fix PROJ-1", "fix/proj-1"⟩] []).2.2.1
      rfl (by decide)
  · exact (per_item_failure_amended (fun _ => .raised) (fun _ => .success)
      "PROJ" ⟨∅, ∅⟩ "PROJ-1" [] []
      [(["PROJ-1"], []), (["PROJ-2"], [])]).2.2.2
